import Mathlib

/-!
# Verification of `fix_encoding.py` (BotaiInscription)

Shallow embedding of the single-file mojibake-repair script.  The script:

1. opens the target file in text mode with `encoding='utf-8'` and reads its
   full content (strict UTF-8 decode, with Python's universal-newline
   translation of `\r\n` and `\r` to `\n`);
2. computes `fixed_content = content.encode('cp1252').decode('utf-8')`;
3. prints `"Successfully decoded content."`;
4. opens the same file for writing with `encoding='utf-8'` and writes
   `fixed_content`;
5. prints a final success message;
with three `except` handlers: `UnicodeEncodeError`, `UnicodeDecodeError`,
and a generic `Exception` handler, each printing one error line.

Bytes and Unicode code points are modelled as `Nat` (bytes are < 0x100,
code points are Unicode scalar values).  The file system is modelled as the
target file's byte content, `Option (List Nat)` (`none` = file absent).
The observable behaviour of one run is a list of events (file opens and
printed messages) plus the final file content.

Python's text-mode write with `newline=None` translates `\n` to
`os.linesep`; this model uses the POSIX line separator `"\n"`, under which
the write-side translation is the identity.  The read-side translation
(`\r\n`/`\r` → `\n`) is platform-independent and is modelled.
-/

/-- Unicode scalar value: a code point that is not a surrogate and is
in range.  Python `str` holds exactly these (surrogates can be smuggled
into a `str`, but strict UTF-8 decoding never produces them and strict
UTF-8 encoding rejects them). -/
def IsScalar (c : Nat) : Prop := c < 0xD800 ∨ (0xE000 ≤ c ∧ c < 0x110000)

instance (c : Nat) : Decidable (IsScalar c) := by
  unfold IsScalar; infer_instance

/-- Strict UTF-8 decoding of a byte sequence into code points, as Python's
`bytes.decode('utf-8')` (errors='strict'): rejects stray continuation
bytes, overlong forms, surrogates, code points above U+10FFFF, and
truncated sequences. -/
def utf8Decode : List Nat → Option (List Nat)
  | [] => some []
  | b0 :: rest =>
    if b0 < 0x80 then
      (utf8Decode rest).map (b0 :: ·)
    else
      match rest with
      | [] => none
      | b1 :: rest1 =>
        if 0xC2 ≤ b0 ∧ b0 < 0xE0 ∧ 0x80 ≤ b1 ∧ b1 < 0xC0 then
          (utf8Decode rest1).map (((b0 - 0xC0) * 0x40 + (b1 - 0x80)) :: ·)
        else
          match rest1 with
          | [] => none
          | b2 :: rest2 =>
            if 0xE0 ≤ b0 ∧ b0 < 0xF0 ∧ 0x80 ≤ b1 ∧ b1 < 0xC0 ∧ 0x80 ≤ b2 ∧ b2 < 0xC0 ∧
                0x800 ≤ (b0 - 0xE0) * 0x1000 + (b1 - 0x80) * 0x40 + (b2 - 0x80) ∧
                IsScalar ((b0 - 0xE0) * 0x1000 + (b1 - 0x80) * 0x40 + (b2 - 0x80)) then
              (utf8Decode rest2).map
                (((b0 - 0xE0) * 0x1000 + (b1 - 0x80) * 0x40 + (b2 - 0x80)) :: ·)
            else
              match rest2 with
              | [] => none
              | b3 :: rest3 =>
                if 0xF0 ≤ b0 ∧ b0 < 0xF8 ∧ 0x80 ≤ b1 ∧ b1 < 0xC0 ∧ 0x80 ≤ b2 ∧ b2 < 0xC0 ∧
                    0x80 ≤ b3 ∧ b3 < 0xC0 ∧
                    0x10000 ≤ (b0 - 0xF0) * 0x40000 + (b1 - 0x80) * 0x1000 +
                      (b2 - 0x80) * 0x40 + (b3 - 0x80) ∧
                    (b0 - 0xF0) * 0x40000 + (b1 - 0x80) * 0x1000 +
                      (b2 - 0x80) * 0x40 + (b3 - 0x80) < 0x110000 then
                  (utf8Decode rest3).map
                    (((b0 - 0xF0) * 0x40000 + (b1 - 0x80) * 0x1000 +
                      (b2 - 0x80) * 0x40 + (b3 - 0x80)) :: ·)
                else none
  termination_by structural l => l

/-- UTF-8 encoding of one Unicode scalar value (total on `Nat`; only used
on scalar values). -/
def utf8EncodeChar (c : Nat) : List Nat :=
  if c < 0x80 then [c]
  else if c < 0x800 then [0xC0 + c / 0x40, 0x80 + c % 0x40]
  else if c < 0x10000 then
    [0xE0 + c / 0x1000, 0x80 + c / 0x40 % 0x40, 0x80 + c % 0x40]
  else
    [0xF0 + c / 0x40000, 0x80 + c / 0x1000 % 0x40, 0x80 + c / 0x40 % 0x40, 0x80 + c % 0x40]

/-- UTF-8 encoding of a code-point sequence (total; the script only applies
it to text obtained from strict UTF-8 decoding, which is all scalar). -/
def utf8EncodeF (s : List Nat) : List Nat := (s.map utf8EncodeChar).flatten

/-- Python `str.encode('utf-8')`: fails (UnicodeEncodeError) when the string
contains a non-scalar code point, otherwise produces `utf8EncodeF`. -/
def utf8EncodeStr (s : List Nat) : Option (List Nat) :=
  if s.all fun c => decide (IsScalar c) then some (utf8EncodeF s) else none

/-- The Windows-1252 (cp1252) encoder for one code point, as Python's
`str.encode('cp1252')` acts per character: bytes 0x00–0x7F and 0xA0–0xFF
are the identity on code points, the 0x80–0x9F block maps the 27 defined
graphic characters, and every other code point has no representation
(UnicodeEncodeError). -/
def cp1252EncodeChar (c : Nat) : Option Nat :=
  if c < 0x80 then some c
  else if 0xA0 ≤ c ∧ c ≤ 0xFF then some c
  else
    match c with
    | 0x20AC => some 0x80
    | 0x201A => some 0x82
    | 0x0192 => some 0x83
    | 0x201E => some 0x84
    | 0x2026 => some 0x85
    | 0x2020 => some 0x86
    | 0x2021 => some 0x87
    | 0x02C6 => some 0x88
    | 0x2030 => some 0x89
    | 0x0160 => some 0x8A
    | 0x2039 => some 0x8B
    | 0x0152 => some 0x8C
    | 0x017D => some 0x8E
    | 0x2018 => some 0x91
    | 0x2019 => some 0x92
    | 0x201C => some 0x93
    | 0x201D => some 0x94
    | 0x2022 => some 0x95
    | 0x2013 => some 0x96
    | 0x2014 => some 0x97
    | 0x02DC => some 0x98
    | 0x2122 => some 0x99
    | 0x0161 => some 0x9A
    | 0x203A => some 0x9B
    | 0x0153 => some 0x9C
    | 0x017E => some 0x9E
    | 0x0178 => some 0x9F
    | _ => none

/-- The Windows-1252 decoder for one byte, as Python's
`bytes.decode('cp1252')` acts per byte: inverse of `cp1252EncodeChar`;
the five unassigned bytes 0x81, 0x8D, 0x8F, 0x90, 0x9D raise
UnicodeDecodeError ("character maps to undefined").  A Python byte is
always < 0x100; the leading guard records that. -/
def cp1252DecodeByte (b : Nat) : Option Nat :=
  if 0x100 ≤ b then none
  else if b < 0x80 then some b
  else if 0xA0 ≤ b ∧ b ≤ 0xFF then some b
  else
    match b with
    | 0x80 => some 0x20AC
    | 0x82 => some 0x201A
    | 0x83 => some 0x0192
    | 0x84 => some 0x201E
    | 0x85 => some 0x2026
    | 0x86 => some 0x2020
    | 0x87 => some 0x2021
    | 0x88 => some 0x02C6
    | 0x89 => some 0x2030
    | 0x8A => some 0x0160
    | 0x8B => some 0x2039
    | 0x8C => some 0x0152
    | 0x8E => some 0x017D
    | 0x91 => some 0x2018
    | 0x92 => some 0x2019
    | 0x93 => some 0x201C
    | 0x94 => some 0x201D
    | 0x95 => some 0x2022
    | 0x96 => some 0x2013
    | 0x97 => some 0x2014
    | 0x98 => some 0x02DC
    | 0x99 => some 0x2122
    | 0x9A => some 0x0161
    | 0x9B => some 0x203A
    | 0x9C => some 0x0153
    | 0x9E => some 0x017E
    | 0x9F => some 0x0178
    | _ => none

/-- `str.encode('cp1252')` over a whole string: fails on the first
unrepresentable character. -/
def cp1252Encode : List Nat → Option (List Nat)
  | [] => some []
  | c :: rest =>
    match cp1252EncodeChar c with
    | none => none
    | some b => (cp1252Encode rest).map (b :: ·)

/-- `bytes.decode('cp1252')` over a whole byte string: fails on the first
unassigned byte. -/
def cp1252Decode : List Nat → Option (List Nat)
  | [] => some []
  | b :: rest =>
    match cp1252DecodeByte b with
    | none => none
    | some c => (cp1252Decode rest).map (c :: ·)

/-- Python universal-newline translation applied by text-mode reading with
`newline=None` (the script's `open(file_path, 'r', encoding='utf-8')`):
`\r\n` and lone `\r` become `\n`.  Operates on code points, after
decoding. -/
def translateNewlines : List Nat → List Nat
  | [] => []
  | 0x0D :: 0x0A :: rest => 0x0A :: translateNewlines rest
  | 0x0D :: rest => 0x0A :: translateNewlines rest
  | c :: rest => c :: translateNewlines rest

/-- The text obtained by `f.read()` on a file with byte content `bs`
opened as `open(file_path, 'r', encoding='utf-8')`: strict UTF-8 decode
then universal-newline translation. -/
def readContent (bs : List Nat) : Option (List Nat) :=
  (utf8Decode bs).map translateNewlines

/-- The in-memory repair transform of line 14 of the script,
`content.encode('cp1252').decode('utf-8')`: `none` models the raised
UnicodeEncodeError / UnicodeDecodeError. -/
def repairText (content : List Nat) : Option (List Nat) :=
  (cp1252Encode content).bind utf8Decode

/-- The mojibake corruption the script is designed to undo: encode the true
text as UTF-8 and misinterpret the bytes as cp1252. -/
def corrupt (t : List Nat) : Option (List Nat) :=
  (utf8EncodeStr t).bind cp1252Decode

/-- One printed status line of the script; the payload of an error message
is the data the embedded `UnicodeEncodeError` / `UnicodeDecodeError`
carries (the object being transcoded), which together with the fixed
format string determines the printed text. -/
inductive Msg
  | successDecode
  | fixedEncoding
  | encodeError (text : List Nat)
  | decodeError (bytes : List Nat)
  | otherError
deriving DecidableEq

/-- An externally observable event of one run of the script. -/
inductive Event
  | openRead
  | openWrite
  | print (m : Msg)
deriving DecidableEq

/-- Which stage of the linear pipeline a run reaches (used to talk about
the failure mode; not itself observable output). -/
inductive Stage
  | fileFail
  | readFail
  | encodeFail
  | redecodeFail
  | success
deriving DecidableEq

/-- One run of the whole script (the module-level `try` block with its
three `except` handlers) on a file whose byte content is `file`
(`none` = the path does not exist, so `open` raises `FileNotFoundError`,
caught by the generic `except Exception` handler).  Returns the event
trace and the final byte content of the file. -/
def run (file : Option (List Nat)) : List Event × Option (List Nat) :=
  match file with
  | none => ([Event.print Msg.otherError], none)
  | some bs =>
    match utf8Decode bs with
    | none => ([Event.openRead, Event.print (Msg.decodeError bs)], some bs)
    | some raw =>
      match cp1252Encode (translateNewlines raw) with
      | none =>
        ([Event.openRead, Event.print (Msg.encodeError (translateNewlines raw))], some bs)
      | some mid =>
        match utf8Decode mid with
        | none => ([Event.openRead, Event.print (Msg.decodeError mid)], some bs)
        | some fixed =>
          ([Event.openRead, Event.print Msg.successDecode, Event.openWrite,
            Event.print Msg.fixedEncoding], some (utf8EncodeF fixed))

/-- The stage a run on `file` reaches, mirroring `run` branch by branch. -/
def runStage (file : Option (List Nat)) : Stage :=
  match file with
  | none => Stage.fileFail
  | some bs =>
    match utf8Decode bs with
    | none => Stage.readFail
    | some raw =>
      match cp1252Encode (translateNewlines raw) with
      | none => Stage.encodeFail
      | some mid =>
        match utf8Decode mid with
        | none => Stage.redecodeFail
        | some _ => Stage.success

/-- Whether an event is one of the three error prints (the bodies of the
three `except` handlers). -/
def isErrorPrint : Event → Bool
  | Event.print (Msg.encodeError _) => true
  | Event.print (Msg.decodeError _) => true
  | Event.print Msg.otherError => true
  | _ => false

/-! ## Decoder step lemmas -/

theorem utf8Decode_nil : utf8Decode [] = some [] := rfl

theorem utf8Decode_ascii_step (b0 : Nat) (h : b0 < 0x80) (rest : List Nat) :
    utf8Decode (b0 :: rest) = (utf8Decode rest).map (b0 :: ·) := by
  rcases rest with _ | ⟨x, _ | ⟨y, _ | ⟨z, r⟩⟩⟩ <;>
    (simp only [utf8Decode]; rw [if_pos h])

theorem utf8Decode_two_step (b0 b1 : Nat)
    (h : 0xC2 ≤ b0 ∧ b0 < 0xE0 ∧ 0x80 ≤ b1 ∧ b1 < 0xC0) (rest : List Nat) :
    utf8Decode (b0 :: b1 :: rest) =
      (utf8Decode rest).map (((b0 - 0xC0) * 0x40 + (b1 - 0x80)) :: ·) := by
  rcases rest with _ | ⟨x, _ | ⟨y, r⟩⟩ <;>
    (simp only [utf8Decode]; rw [if_neg (by omega), if_pos h])

theorem utf8Decode_three_step (b0 b1 b2 : Nat)
    (h : 0xE0 ≤ b0 ∧ b0 < 0xF0 ∧ 0x80 ≤ b1 ∧ b1 < 0xC0 ∧ 0x80 ≤ b2 ∧ b2 < 0xC0 ∧
      0x800 ≤ (b0 - 0xE0) * 0x1000 + (b1 - 0x80) * 0x40 + (b2 - 0x80) ∧
      IsScalar ((b0 - 0xE0) * 0x1000 + (b1 - 0x80) * 0x40 + (b2 - 0x80)))
    (rest : List Nat) :
    utf8Decode (b0 :: b1 :: b2 :: rest) =
      (utf8Decode rest).map
        (((b0 - 0xE0) * 0x1000 + (b1 - 0x80) * 0x40 + (b2 - 0x80)) :: ·) := by
  rcases rest with _ | ⟨x, r⟩ <;>
    (simp only [utf8Decode]
     rw [if_neg (by omega), if_neg (by rintro ⟨h1, h2, h3, h4⟩; omega), if_pos h])

theorem utf8Decode_four_step (b0 b1 b2 b3 : Nat)
    (h : 0xF0 ≤ b0 ∧ b0 < 0xF8 ∧ 0x80 ≤ b1 ∧ b1 < 0xC0 ∧ 0x80 ≤ b2 ∧ b2 < 0xC0 ∧
      0x80 ≤ b3 ∧ b3 < 0xC0 ∧
      0x10000 ≤ (b0 - 0xF0) * 0x40000 + (b1 - 0x80) * 0x1000 +
        (b2 - 0x80) * 0x40 + (b3 - 0x80) ∧
      (b0 - 0xF0) * 0x40000 + (b1 - 0x80) * 0x1000 +
        (b2 - 0x80) * 0x40 + (b3 - 0x80) < 0x110000)
    (rest : List Nat) :
    utf8Decode (b0 :: b1 :: b2 :: b3 :: rest) =
      (utf8Decode rest).map
        (((b0 - 0xF0) * 0x40000 + (b1 - 0x80) * 0x1000 +
          (b2 - 0x80) * 0x40 + (b3 - 0x80)) :: ·) := by
  simp only [utf8Decode]
  rw [if_neg (by omega), if_neg (by rintro ⟨h1, h2, h3, h4⟩; omega),
    if_neg (by rintro ⟨h1, h2, h3⟩; omega), if_pos h]

/-! ## Round trip: decoding an encoded scalar -/

theorem utf8Decode_encodeChar (c : Nat) (hc : IsScalar c) (rest : List Nat) :
    utf8Decode (utf8EncodeChar c ++ rest) = (utf8Decode rest).map (c :: ·) := by
  rcases Nat.lt_or_ge c 0x80 with h1 | h1
  · have e : utf8EncodeChar c = [c] := by unfold utf8EncodeChar; rw [if_pos h1]
    rw [e, List.cons_append, List.nil_append, utf8Decode_ascii_step c h1]
  rcases Nat.lt_or_ge c 0x800 with h2 | h2
  · have e : utf8EncodeChar c = [0xC0 + c / 0x40, 0x80 + c % 0x40] := by
      unfold utf8EncodeChar; rw [if_neg (by omega), if_pos h2]
    rw [e, List.cons_append, List.cons_append, List.nil_append,
      utf8Decode_two_step _ _ ⟨by omega, by omega, by omega, by omega⟩,
      show (0xC0 + c / 0x40 - 0xC0) * 0x40 + (0x80 + c % 0x40 - 0x80) = c by omega]
  rcases Nat.lt_or_ge c 0x10000 with h3 | h3
  · have e : utf8EncodeChar c =
        [0xE0 + c / 0x1000, 0x80 + c / 0x40 % 0x40, 0x80 + c % 0x40] := by
      unfold utf8EncodeChar; rw [if_neg (by omega), if_neg (by omega), if_pos h3]
    have hv : (0xE0 + c / 0x1000 - 0xE0) * 0x1000 +
        (0x80 + c / 0x40 % 0x40 - 0x80) * 0x40 + (0x80 + c % 0x40 - 0x80) = c := by
      omega
    rw [e, List.cons_append, List.cons_append, List.cons_append, List.nil_append,
      utf8Decode_three_step _ _ _
        ⟨by omega, by omega, by omega, by omega, by omega, by omega,
         by rw [hv]; omega, by rw [hv]; exact hc⟩,
      hv]
  · have e : utf8EncodeChar c =
        [0xF0 + c / 0x40000, 0x80 + c / 0x1000 % 0x40,
         0x80 + c / 0x40 % 0x40, 0x80 + c % 0x40] := by
      unfold utf8EncodeChar; rw [if_neg (by omega), if_neg (by omega), if_neg (by omega)]
    have hlt : c < 0x110000 := by
      rcases hc with h | h
      · omega
      · exact h.2
    have hv : (0xF0 + c / 0x40000 - 0xF0) * 0x40000 +
        (0x80 + c / 0x1000 % 0x40 - 0x80) * 0x1000 +
        (0x80 + c / 0x40 % 0x40 - 0x80) * 0x40 + (0x80 + c % 0x40 - 0x80) = c := by
      omega
    rw [e, List.cons_append, List.cons_append, List.cons_append, List.cons_append,
      List.nil_append,
      utf8Decode_four_step _ _ _ _
        ⟨by omega, by omega, by omega, by omega, by omega, by omega, by omega, by omega,
         by rw [hv]; omega, by rw [hv]; exact hlt⟩,
      hv]

theorem utf8Decode_encodeF (s : List Nat) (h : ∀ c ∈ s, IsScalar c) :
    utf8Decode (utf8EncodeF s) = some s := by
  induction s with
  | nil => rfl
  | cons c t ih =>
    have : utf8EncodeF (c :: t) = utf8EncodeChar c ++ utf8EncodeF t := by
      simp [utf8EncodeF]
    rw [this, utf8Decode_encodeChar c (h c (List.mem_cons_self c t)),
      ih fun x hx => h x (List.mem_cons_of_mem c hx)]
    rfl

/-! ## cp1252 lemmas -/

set_option maxRecDepth 4000 in
theorem cp1252_byte_inverse :
    ∀ b < 0x100,
      Option.all (fun c => cp1252EncodeChar c == some b) (cp1252DecodeByte b) = true := by
  decide

theorem cp1252EncodeChar_of_decodeByte {b c : Nat} (h : cp1252DecodeByte b = some c) :
    cp1252EncodeChar c = some b := by
  by_cases hb : b < 0x100
  · have h2 := cp1252_byte_inverse b hb
    rw [h] at h2
    simpa using h2
  · rw [cp1252DecodeByte.eq_def, if_pos (by omega)] at h
    exact Option.noConfusion h

theorem cp1252Encode_of_decode :
    ∀ {bs t : List Nat}, cp1252Decode bs = some t → cp1252Encode t = some bs := by
  intro bs
  induction bs with
  | nil =>
    intro t h
    simp only [cp1252Decode] at h
    rw [← Option.some.inj h]
    rfl
  | cons b rest ih =>
    intro t h
    simp only [cp1252Decode] at h
    cases hd : cp1252DecodeByte b with
    | none => rw [hd] at h; exact Option.noConfusion h
    | some c =>
      rw [hd] at h
      cases hr : cp1252Decode rest with
      | none => rw [hr] at h; exact Option.noConfusion h
      | some t2 =>
        rw [hr] at h
        rw [← Option.some.inj h]
        simp only [cp1252Encode, cp1252EncodeChar_of_decodeByte hd, ih hr]
        rfl

theorem cp1252Encode_of_ascii {s : List Nat} (h : ∀ c ∈ s, c < 0x80) :
    cp1252Encode s = some s := by
  induction s with
  | nil => rfl
  | cons c rest ih =>
    have hc : cp1252EncodeChar c = some c := by
      rw [cp1252EncodeChar.eq_def, if_pos (h c (List.mem_cons_self c rest))]
    simp only [cp1252Encode, hc, ih fun x hx => h x (List.mem_cons_of_mem c hx)]
    rfl

theorem cp1252Encode_eq_none {s : List Nat} (h : ∃ c ∈ s, cp1252EncodeChar c = none) :
    cp1252Encode s = none := by
  induction s with
  | nil => exact absurd h (by simp)
  | cons c rest ih =>
    rcases h with ⟨d, hd, hnone⟩
    rcases List.mem_cons.mp hd with rfl | hd2
    · simp only [cp1252Encode, hnone]
    · cases hc : cp1252EncodeChar c with
      | none => simp only [cp1252Encode, hc]
      | some b =>
        simp only [cp1252Encode, hc, ih ⟨d, hd2, hnone⟩]
        rfl

/-! ## Newline translation and ASCII lemmas -/

theorem translateNewlines_of_noCR {s : List Nat} (h : 0x0D ∉ s) :
    translateNewlines s = s := by
  induction s with
  | nil => rfl
  | cons c rest ih =>
    have hc : ¬ c = 0x0D := fun e => h (e ▸ List.mem_cons_self c rest)
    rw [translateNewlines.eq_4 c rest (fun _ e _ => hc e) hc,
      ih fun e => h (List.mem_cons_of_mem c e)]

theorem utf8Decode_of_ascii {bs : List Nat} (h : ∀ b ∈ bs, b < 0x80) :
    utf8Decode bs = some bs := by
  induction bs with
  | nil => rfl
  | cons b rest ih =>
    rw [utf8Decode_ascii_step b (h b (List.mem_cons_self b rest)),
      ih fun x hx => h x (List.mem_cons_of_mem b hx)]
    rfl

theorem utf8EncodeF_of_ascii {s : List Nat} (h : ∀ c ∈ s, c < 0x80) :
    utf8EncodeF s = s := by
  induction s with
  | nil => rfl
  | cons c rest ih =>
    have hc : utf8EncodeChar c = [c] := by
      rw [utf8EncodeChar.eq_def, if_pos (h c (List.mem_cons_self c rest))]
    have : utf8EncodeF (c :: rest) = utf8EncodeChar c ++ utf8EncodeF rest := by
      simp [utf8EncodeF]
    rw [this, hc, ih fun x hx => h x (List.mem_cons_of_mem c hx), List.singleton_append]

/-! ## The round-trip law -/

theorem repair_roundtrip {t ct : List Nat} (h : corrupt t = some ct) :
    repairText ct = some t := by
  unfold corrupt at h
  cases he : utf8EncodeStr t with
  | none => rw [he] at h; exact Option.noConfusion h
  | some bs =>
    rw [he, Option.some_bind] at h
    unfold utf8EncodeStr at he
    by_cases hall : t.all fun c => decide (IsScalar c)
    · rw [if_pos hall] at he
      have hbs : bs = utf8EncodeF t := (Option.some.inj he).symm
      subst hbs
      have hsc : ∀ c ∈ t, IsScalar c := by
        intro c hc
        exact of_decide_eq_true (List.all_eq_true.mp hall c hc)
      unfold repairText
      rw [cp1252Encode_of_decode h, Option.some_bind]
      exact utf8Decode_encodeF t hsc
    · rw [if_neg hall] at he
      exact Option.noConfusion he

/-! ## Branch lemmas for `run` and `runStage` -/

theorem run_none : run none = ([Event.print Msg.otherError], none) := rfl

theorem run_readFail {bs : List Nat} (h : utf8Decode bs = none) :
    run (some bs) = ([Event.openRead, Event.print (Msg.decodeError bs)], some bs) := by
  simp only [run, h]

theorem run_encodeFail {bs raw : List Nat} (h1 : utf8Decode bs = some raw)
    (h2 : cp1252Encode (translateNewlines raw) = none) :
    run (some bs) =
      ([Event.openRead, Event.print (Msg.encodeError (translateNewlines raw))], some bs) := by
  simp only [run, h1, h2]

theorem run_redecodeFail {bs raw mid : List Nat} (h1 : utf8Decode bs = some raw)
    (h2 : cp1252Encode (translateNewlines raw) = some mid) (h3 : utf8Decode mid = none) :
    run (some bs) = ([Event.openRead, Event.print (Msg.decodeError mid)], some bs) := by
  simp only [run, h1, h2, h3]

theorem run_successCase {bs raw mid fixed : List Nat} (h1 : utf8Decode bs = some raw)
    (h2 : cp1252Encode (translateNewlines raw) = some mid)
    (h3 : utf8Decode mid = some fixed) :
    run (some bs) =
      ([Event.openRead, Event.print Msg.successDecode, Event.openWrite,
        Event.print Msg.fixedEncoding], some (utf8EncodeF fixed)) := by
  simp only [run, h1, h2, h3]

theorem runStage_none : runStage none = Stage.fileFail := rfl

theorem runStage_readFail {bs : List Nat} (h : utf8Decode bs = none) :
    runStage (some bs) = Stage.readFail := by
  simp only [runStage, h]

theorem runStage_encodeFail {bs raw : List Nat} (h1 : utf8Decode bs = some raw)
    (h2 : cp1252Encode (translateNewlines raw) = none) :
    runStage (some bs) = Stage.encodeFail := by
  simp only [runStage, h1, h2]

theorem runStage_redecodeFail {bs raw mid : List Nat} (h1 : utf8Decode bs = some raw)
    (h2 : cp1252Encode (translateNewlines raw) = some mid) (h3 : utf8Decode mid = none) :
    runStage (some bs) = Stage.redecodeFail := by
  simp only [runStage, h1, h2, h3]

theorem runStage_successCase {bs raw mid fixed : List Nat} (h1 : utf8Decode bs = some raw)
    (h2 : cp1252Encode (translateNewlines raw) = some mid)
    (h3 : utf8Decode mid = some fixed) :
    runStage (some bs) = Stage.success := by
  simp only [runStage, h1, h2, h3]

example : utf8Decode [0xC3, 0x83, 0xC2, 0xA9, 0x63] = some [0xC3, 0xA9, 0x63] := by decide

example :
    run (some [0xC3, 0x83, 0xC2, 0xA9, 0x63, 0x6F, 0x6C, 0x65]) =
      ([Event.openRead, Event.print Msg.successDecode, Event.openWrite,
        Event.print Msg.fixedEncoding],
       some [0xC3, 0xA9, 0x63, 0x6F, 0x6C, 0x65]) := by decide

example : run (some [0xFF]) =
    ([Event.openRead, Event.print (Msg.decodeError [0xFF])], some [0xFF]) := by decide

example : runStage (some [0xC3, 0xBF]) = Stage.redecodeFail := by decide

example : corrupt [0xE9, 0x63, 0x6F, 0x6C, 0x65] =
    some [0xC3, 0xA9, 0x63, 0x6F, 0x6C, 0x65] := by decide

example : run (some [0x61, 0x0D]) =
    ([Event.openRead, Event.print Msg.successDecode, Event.openWrite,
      Event.print Msg.fixedEncoding], some [0x61, 0x0A]) := by decide

/-! ## Claims -/

/-- Claim C1: for every run of the repair operation, if the full pipeline
does not succeed, the on-disk content of the target file is byte-for-byte
unchanged afterwards; and the write is only begun after the transcode has
fully succeeded in memory (the file is only ever opened for writing on a
run whose transcode stage succeeded). -/
theorem claim_C1_no_modification_without_success (file : Option (List Nat)) :
    (runStage file ≠ Stage.success → (run file).2 = file) ∧
      (Event.openWrite ∈ (run file).1 → runStage file = Stage.success) := by
  cases file with
  | none =>
    refine ⟨fun _ => rfl, fun hmem => ?_⟩
    rw [run_none] at hmem
    simp at hmem
  | some bs =>
    cases h1 : utf8Decode bs with
    | none =>
      rw [run_readFail h1, runStage_readFail h1]
      exact ⟨fun _ => rfl, fun hmem => absurd hmem (by simp)⟩
    | some raw =>
      cases h2 : cp1252Encode (translateNewlines raw) with
      | none =>
        rw [run_encodeFail h1 h2, runStage_encodeFail h1 h2]
        exact ⟨fun _ => rfl, fun hmem => absurd hmem (by simp)⟩
      | some mid =>
        cases h3 : utf8Decode mid with
        | none =>
          rw [run_redecodeFail h1 h2 h3, runStage_redecodeFail h1 h2 h3]
          exact ⟨fun _ => rfl, fun hmem => absurd hmem (by simp)⟩
        | some fixed =>
          rw [run_successCase h1 h2 h3, runStage_successCase h1 h2 h3]
          exact ⟨fun hne => absurd rfl hne, fun _ => rfl⟩

theorem claim_C1_witness :
    runStage (some [0xFF]) ≠ Stage.success ∧ (run (some [0xFF])).2 = some [0xFF] :=
  ⟨by decide, (claim_C1_no_modification_without_success (some [0xFF])).1 (by decide)⟩

/-- Claim C2: for every text `t` whose mojibake corruption
`c(t) = decode_cp1252(encode_utf8(t))` is defined, the repair transform
`decode_utf8(encode_cp1252(.))` applied to `c(t)` yields exactly `t`
(round-trip law); and the concrete scenario: the file containing
`"Ã©cole"` (UTF-8 bytes C3 83 C2 A9 63 6F 6C 65) is rewritten to contain
`"école"` (UTF-8 bytes C3 A9 63 6F 6C 65). -/
theorem claim_C2_roundtrip (t ct : List Nat) (h : corrupt t = some ct) :
    repairText ct = some t ∧
      run (some [0xC3, 0x83, 0xC2, 0xA9, 0x63, 0x6F, 0x6C, 0x65]) =
        ([Event.openRead, Event.print Msg.successDecode, Event.openWrite,
          Event.print Msg.fixedEncoding],
         some [0xC3, 0xA9, 0x63, 0x6F, 0x6C, 0x65]) :=
  ⟨repair_roundtrip h, by decide⟩

theorem claim_C2_witness :
    corrupt [0xE9, 0x63, 0x6F, 0x6C, 0x65] = some [0xC3, 0xA9, 0x63, 0x6F, 0x6C, 0x65] ∧
      (repairText [0xC3, 0xA9, 0x63, 0x6F, 0x6C, 0x65] = some [0xE9, 0x63, 0x6F, 0x6C, 0x65] ∧
        run (some [0xC3, 0x83, 0xC2, 0xA9, 0x63, 0x6F, 0x6C, 0x65]) =
          ([Event.openRead, Event.print Msg.successDecode, Event.openWrite,
            Event.print Msg.fixedEncoding],
           some [0xC3, 0xA9, 0x63, 0x6F, 0x6C, 0x65])) :=
  ⟨by decide,
   claim_C2_roundtrip [0xE9, 0x63, 0x6F, 0x6C, 0x65] [0xC3, 0xA9, 0x63, 0x6F, 0x6C, 0x65]
     (by decide)⟩

/-- Claim C3: for every input file whose decoded text contains at least one
character with no representation in cp1252, the run fails through the
`UnicodeEncodeError` handler (the encode-stage error message) and the file
on disk is left byte-for-byte unchanged. -/
theorem claim_C3_encode_error (bs t : List Nat) (h1 : readContent bs = some t)
    (h2 : ∃ c ∈ t, cp1252EncodeChar c = none) :
    run (some bs) = ([Event.openRead, Event.print (Msg.encodeError t)], some bs) := by
  unfold readContent at h1
  cases hd : utf8Decode bs with
  | none => rw [hd] at h1; exact Option.noConfusion h1
  | some raw =>
    rw [hd] at h1
    have ht : translateNewlines raw = t := Option.some.inj h1
    rw [run_encodeFail hd (by rw [ht]; exact cp1252Encode_eq_none h2), ht]

theorem claim_C3_witness :
    readContent [0xD0, 0x99] = some [0x419] ∧
      (∃ c ∈ [0x419], cp1252EncodeChar c = none) ∧
      run (some [0xD0, 0x99]) =
        ([Event.openRead, Event.print (Msg.encodeError [0x419])], some [0xD0, 0x99]) :=
  ⟨by decide, by decide, claim_C3_encode_error [0xD0, 0x99] [0x419] (by decide) (by decide)⟩

/-- Claim C4: for every input file whose text re-encodes under cp1252 to a
byte sequence that is not valid UTF-8, the run fails through the
`UnicodeDecodeError` handler (the decode-stage error message) and the file
on disk is left unchanged. -/
theorem claim_C4_redecode_error (bs t mid : List Nat) (h1 : readContent bs = some t)
    (h2 : cp1252Encode t = some mid) (h3 : utf8Decode mid = none) :
    run (some bs) = ([Event.openRead, Event.print (Msg.decodeError mid)], some bs) := by
  unfold readContent at h1
  cases hd : utf8Decode bs with
  | none => rw [hd] at h1; exact Option.noConfusion h1
  | some raw =>
    rw [hd] at h1
    have ht : translateNewlines raw = t := Option.some.inj h1
    exact run_redecodeFail hd (by rw [ht]; exact h2) h3

theorem claim_C4_witness :
    readContent [0xC3, 0xBF] = some [0xFF] ∧
      cp1252Encode [0xFF] = some [0xFF] ∧ utf8Decode [0xFF] = none ∧
      run (some [0xC3, 0xBF]) =
        ([Event.openRead, Event.print (Msg.decodeError [0xFF])], some [0xC3, 0xBF]) :=
  ⟨by decide, by decide, by decide,
   claim_C4_redecode_error [0xC3, 0xBF] [0xFF] [0xFF] (by decide) (by decide) (by decide)⟩

/-- Claim C5: for every input file whose raw bytes are not valid UTF-8,
the run fails through the `UnicodeDecodeError` handler at the read stage,
before any transcoding is attempted (the reached stage is `readFail`, not
any later stage), and no write occurs. -/
theorem claim_C5_read_error (bs : List Nat) (h : utf8Decode bs = none) :
    run (some bs) = ([Event.openRead, Event.print (Msg.decodeError bs)], some bs) ∧
      runStage (some bs) = Stage.readFail ∧
      Event.openWrite ∉ (run (some bs)).1 := by
  refine ⟨run_readFail h, runStage_readFail h, ?_⟩
  rw [run_readFail h]
  simp

theorem claim_C5_witness :
    utf8Decode [0xFF] = none ∧
      (run (some [0xFF]) = ([Event.openRead, Event.print (Msg.decodeError [0xFF])], some [0xFF]) ∧
        runStage (some [0xFF]) = Stage.readFail ∧
        Event.openWrite ∉ (run (some [0xFF])).1) :=
  ⟨by decide, claim_C5_read_error [0xFF] (by decide)⟩

/-- Claim C6 counterexample: the claim that a read-stage `DecodeError` is
distinguishable in the program's error reporting from a re-decode-stage
`DecodeError` is false: the file `FF` fails at the read stage and the file
`C3 BF` fails at the final re-decode stage, yet the two runs produce
identical event traces (both print the same decode-stage message carrying
the same failing byte string `FF`). -/
theorem claim_C6_counterexample :
    runStage (some [0xFF]) = Stage.readFail ∧
      runStage (some [0xC3, 0xBF]) = Stage.redecodeFail ∧
      (run (some [0xFF])).1 = (run (some [0xC3, 0xBF])).1 := by
  decide

/-- Claim C6 amended: the error report identifies a decode-stage failure as
such — a run prints the decode-stage error message exactly when it fails at
the initial read or at the final re-decode — but the report does not
identify which of the two decode points failed. -/
theorem claim_C6_decode_report (bs : List Nat) :
    (runStage (some bs) = Stage.readFail ∨ runStage (some bs) = Stage.redecodeFail) ↔
      ∃ p, (run (some bs)).1 = [Event.openRead, Event.print (Msg.decodeError p)] := by
  cases h1 : utf8Decode bs with
  | none =>
    rw [run_readFail h1, runStage_readFail h1]
    simp
  | some raw =>
    cases h2 : cp1252Encode (translateNewlines raw) with
    | none =>
      rw [run_encodeFail h1 h2, runStage_encodeFail h1 h2]
      simp
    | some mid =>
      cases h3 : utf8Decode mid with
      | none =>
        rw [run_redecodeFail h1 h2 h3, runStage_redecodeFail h1 h2 h3]
        simp
      | some fixed =>
        rw [run_successCase h1 h2 h3, runStage_successCase h1 h2 h3]
        simp

theorem claim_C6_decode_report_witness :
    ∃ p, (run (some [0xFF])).1 = [Event.openRead, Event.print (Msg.decodeError p)] :=
  (claim_C6_decode_report [0xFF]).mp (Or.inl (by decide))

/-- Claim C7 counterexample: the claim that the repair is the identity on
every all-ASCII file is false: the two-byte ASCII file `61 0D` (`"a\r"`) is
repaired successfully, but universal-newline translation on the text-mode
read turns the `\r` into `\n`, so the bytes written back are `61 0A`, not
the original content. -/
theorem claim_C7_counterexample :
    (∀ b ∈ [0x61, 0x0D], b < 0x80) ∧
      run (some [0x61, 0x0D]) =
        ([Event.openRead, Event.print Msg.successDecode, Event.openWrite,
          Event.print Msg.fixedEncoding], some [0x61, 0x0A]) ∧
      (run (some [0x61, 0x0D])).2 ≠ some [0x61, 0x0D] := by
  decide

/-- Claim C7 amended: for every input file consisting only of ASCII bytes
and containing no carriage return (0x0D), the operation succeeds and the
output file content equals the input file content byte for byte. (ASCII
files containing `\r` or `\r\n` still transcode successfully, but their
line endings are normalized to `\n` by the text-mode read, so they are not
preserved byte for byte.) -/
theorem claim_C7_ascii_identity (bs : List Nat) (hascii : ∀ b ∈ bs, b < 0x80)
    (hnoCR : 0x0D ∉ bs) :
    run (some bs) =
      ([Event.openRead, Event.print Msg.successDecode, Event.openWrite,
        Event.print Msg.fixedEncoding], some bs) := by
  have h1 : utf8Decode bs = some bs := utf8Decode_of_ascii hascii
  have ht : translateNewlines bs = bs := translateNewlines_of_noCR hnoCR
  have h2 : cp1252Encode (translateNewlines bs) = some bs := by
    rw [ht]; exact cp1252Encode_of_ascii hascii
  rw [run_successCase h1 h2 h1, utf8EncodeF_of_ascii hascii]

theorem claim_C7_ascii_identity_witness :
    run (some [0x68, 0x65, 0x6C, 0x6C, 0x6F]) =
      ([Event.openRead, Event.print Msg.successDecode, Event.openWrite,
        Event.print Msg.fixedEncoding], some [0x68, 0x65, 0x6C, 0x6C, 0x6F]) :=
  claim_C7_ascii_identity [0x68, 0x65, 0x6C, 0x6C, 0x6F] (by decide) (by decide)

/-- Claim C8: every failure of the operation — including the
nonexistent-path case, handled by the generic `except Exception` — is
caught locally and reported as exactly one error message; no write is
begun on a failing run, and on a nonexistent path the run prints the
generic error and touches nothing. -/
theorem claim_C8_errors_handled (file : Option (List Nat))
    (h : runStage file ≠ Stage.success) :
    (∃ m, (run file).1.filter isErrorPrint = [Event.print m]) ∧
      Event.openWrite ∉ (run file).1 ∧
      run none = ([Event.print Msg.otherError], none) := by
  cases file with
  | none => exact ⟨⟨Msg.otherError, rfl⟩, by rw [run_none]; simp, rfl⟩
  | some bs =>
    cases h1 : utf8Decode bs with
    | none =>
      rw [run_readFail h1]
      exact ⟨⟨Msg.decodeError bs, rfl⟩, by simp, rfl⟩
    | some raw =>
      cases h2 : cp1252Encode (translateNewlines raw) with
      | none =>
        rw [run_encodeFail h1 h2]
        exact ⟨⟨Msg.encodeError (translateNewlines raw), rfl⟩, by simp, rfl⟩
      | some mid =>
        cases h3 : utf8Decode mid with
        | none =>
          rw [run_redecodeFail h1 h2 h3]
          exact ⟨⟨Msg.decodeError mid, rfl⟩, by simp, rfl⟩
        | some fixed =>
          exact absurd (runStage_successCase h1 h2 h3) h

theorem claim_C8_witness :
    runStage none ≠ Stage.success ∧
      ((∃ m, (run none).1.filter isErrorPrint = [Event.print m]) ∧
        Event.openWrite ∉ (run none).1 ∧
        run none = ([Event.print Msg.otherError], none)) :=
  ⟨by decide, claim_C8_errors_handled none (by decide)⟩

/-- Claim C9: the decode-transcode success message is printed before the
file is opened for writing: on every run that opens the file for writing,
the trace is exactly read-open, success-decode print, write-open, final
print — the informational print strictly precedes the write open. -/
theorem claim_C9_print_before_write (file : Option (List Nat))
    (h : Event.openWrite ∈ (run file).1) :
    (run file).1 =
      [Event.openRead, Event.print Msg.successDecode, Event.openWrite,
        Event.print Msg.fixedEncoding] := by
  cases file with
  | none => rw [run_none] at h ⊢; simp at h
  | some bs =>
    cases h1 : utf8Decode bs with
    | none => rw [run_readFail h1] at h ⊢; simp at h
    | some raw =>
      cases h2 : cp1252Encode (translateNewlines raw) with
      | none => rw [run_encodeFail h1 h2] at h ⊢; simp at h
      | some mid =>
        cases h3 : utf8Decode mid with
        | none => rw [run_redecodeFail h1 h2 h3] at h ⊢; simp at h
        | some fixed => rw [run_successCase h1 h2 h3]

theorem claim_C9_witness :
    Event.openWrite ∈ (run (some [0x68])).1 ∧
      (run (some [0x68])).1 =
        [Event.openRead, Event.print Msg.successDecode, Event.openWrite,
          Event.print Msg.fixedEncoding] :=
  ⟨by decide, claim_C9_print_before_write (some [0x68]) (by decide)⟩

/-- Claim C10: the repair transform is deterministic: the event trace and
the written output are a pure function of the input file content — two
runs on identical byte content behave identically. -/
theorem claim_C10_deterministic (f1 f2 : Option (List Nat)) (h : f1 = f2) :
    run f1 = run f2 := by
  rw [h]

theorem claim_C10_witness :
    run (some [0x68]) = run (some [0x68]) :=
  claim_C10_deterministic (some [0x68]) (some [0x68]) rfl
